import Mathlib

/-!
Verification development for the olavm execution core: a shallow embedding of
the executor (`executor/src/lib.rs`), the alternative runner
(`executor/src/runner.rs`), the operand/immediate parser
(`core/src/vm/operands.rs`) and the memory-trace post-processing, together with
theorems settling the specification claims about them.

Machine integers are embedded as `Nat` with explicit `% 2 ^ 64` / `% ORDER`
where the source wraps or canonicalises.  A `GoldilocksField` value is embedded
as its internal `u64` representation (a `Nat` below `2 ^ 64`); the plonky2
field internals are not part of the sources, so canonical conversion and the
field operations follow the specification ("a value in [0, p); canonical
addition, multiplication, negation"), while raw tuple-constructor writes and
`.0` reads that are visible in the sources stay raw.
-/

namespace Olavm

/-- Decidable equality for `Except` results, used to evaluate concrete
runs. -/
instance exceptDecEq {ε α : Type} [DecidableEq ε] [DecidableEq α] :
    DecidableEq (Except ε α) := fun x y =>
  match x, y with
  | .ok a, .ok b =>
    if h : a = b then isTrue (by rw [h]) else isFalse (by simp [h])
  | .error e, .error f =>
    if h : e = f then isTrue (by rw [h]) else isFalse (by simp [h])
  | .ok _, .error _ => isFalse (by simp)
  | .error _, .ok _ => isFalse (by simp)

/-- Goldilocks prime `p = GoldilocksField::ORDER = 2^64 - 2^32 + 1`. -/
def ORDER : Nat := 2 ^ 64 - 2 ^ 32 + 1

/-- `MEM_SPAN_SIZE = u32::MAX as u64` (executor/src/lib.rs); this is
`2^32 - 1`, not `2^32`. -/
def MEM_SPAN_SIZE : Nat := 2 ^ 32 - 1

/-- `PSP_START_ADDR = GoldilocksField::ORDER - MEM_SPAN_SIZE`. -/
def PSP_START_ADDR : Nat := ORDER - MEM_SPAN_SIZE

/-- `POSEIDON_START_ADDR = GoldilocksField::ORDER - 2 * MEM_SPAN_SIZE`. -/
def POSEIDON_START_ADDR : Nat := ORDER - 2 * MEM_SPAN_SIZE

/-- `ECDSA_START_ADDR = GoldilocksField::ORDER - 3 * MEM_SPAN_SIZE`. -/
def ECDSA_START_ADDR : Nat := ORDER - 3 * MEM_SPAN_SIZE

/-- `HP_START_ADDR = GoldilocksField::ORDER - 3 * MEM_SPAN_SIZE`. -/
def HP_START_ADDR : Nat := ORDER - 3 * MEM_SPAN_SIZE

/-- `REGION_SPAN: u64 = 2 ^ 32 - 1` in the source; Rust `^` is XOR and binds
looser than `-`, so this constant is `2 xor (32 - 1) = 2 xor 31 = 29`, not
`2^32 - 1`. -/
def REGION_SPAN : Nat := Nat.xor 2 (32 - 1)

/-- `GoldilocksField::to_canonical_u64`.  Every representation produced by the
embedded operations is below `2 * ORDER`, where reduction by one conditional
subtraction agrees with `% ORDER`. -/
def toCanonical (x : Nat) : Nat := x % ORDER

/-- Canonical field addition followed by `to_canonical_u64`, as used at the
`add` arms (`from_canonical_u64((a + b).to_canonical_u64())`). -/
def gAdd (a b : Nat) : Nat := (a + b) % ORDER

/-- Canonical field multiplication followed by `to_canonical_u64`. -/
def gMul (a b : Nat) : Nat := (a * b) % ORDER

/-- Canonical field subtraction (spec §3: the field supports canonical
arithmetic; plonky2 internals are not under src/). -/
def gSub (a b : Nat) : Nat := (a % ORDER + (ORDER - b % ORDER)) % ORDER

/-- `GoldilocksField::NEG_ONE - value`, the `not` arm.  For every
representation `b < 2^64` the result is the canonical `(p - 1) - b mod p`. -/
def gNot (b : Nat) : Nat := (2 * ORDER - 1 - b) % ORDER

/-- `GoldilocksField::inverse` on the canonical value, via the extended
Euclidean algorithm; the source only inverts nonzero values (`gInv 0 = 0`). -/
def gInv (a : Nat) : Nat := (((Nat.gcdA (a % ORDER) ORDER)) % (ORDER : Int)).toNat

/-- Memory region of an address, as dispatched by the `mload` arm of
`Process::execute` (and spec §4.F: "Region selection is a pure function of
`addr`"). -/
inductive MemRegion
  | prophet
  | poseidon
  | ecdsa
  | readWrite
deriving DecidableEq, Repr

/-- The `mload` region dispatch of `Process::execute`:
`read_addr >= PSP_START_ADDR` is prophet, else `>= POSEIDON_START_ADDR`
poseidon, else `>= ECDSA_START_ADDR` ecdsa, else read-write. -/
def regionOf (addr : Nat) : MemRegion :=
  if PSP_START_ADDR ≤ addr then .prophet
  else if POSEIDON_START_ADDR ≤ addr then .poseidon
  else if ECDSA_START_ADDR ≤ addr then .ecdsa
  else .readWrite

/-- The `(region_prophet, region_poseidon, region_ecdsa)` flags and the
`is_rw` memory type set by the `mload` dispatch for each region. -/
def regionFlags : MemRegion → Nat × Nat × Nat × Nat
  | .prophet => (0, 1, 0, 0)
  | .poseidon => (0, 0, 1, 0)
  | .ecdsa => (0, 0, 0, 1)
  | .readWrite => (1, 0, 0, 0)

/-- Opcodes of the executed text instructions.  The source tags trace cells
with the field element `1 << (opcode index)`; the index table lives in
`core::program::instruction`, which is not under src/ and is never inspected
by the claims, so the tag is kept symbolic here. -/
inductive Opcode
  | MOV | NOT | EQ | NEQ | ASSERT | CJMP | JMP | ADD | MUL | CALL | RET
  | MSTORE | MLOAD | RC | AND | OR | XOR | GTE | END
deriving DecidableEq, Repr

/-- `MemoryType::ReadWrite`.  Modelled from the spec: the enum lives in
`core::trace` (not under src/); `gen_memory_table` treats `is_rw == 0` as the
write-once regions, so read-write is embedded as 1 and write-once as 0. -/
def MemoryType.ReadWrite : Nat := 1

/-- `MemoryType::WriteOnce` (see `MemoryType.ReadWrite`). -/
def MemoryType.WriteOnce : Nat := 0

/-- One memory cell as appended by `MemoryTree::write` / `MemoryTree::read`:
`(clk, op, is_rw, is_write, filter_looked_for_main, region flags, value)`.
`op` is `none` where the source passes the literal field element 0 (prophet
writes and prophet input reads). -/
structure MemCell where
  clk : Nat
  op : Option Opcode
  isRw : Nat
  isWrite : Nat
  filterLookedForMain : Nat
  regionProphet : Nat
  regionPoseidon : Nat
  regionEcdsa : Nat
  value : Nat
deriving DecidableEq, Repr

/-- The memory map `address -> ordered list of cells`; the Rust `BTreeMap` is
embedded as an association list kept sorted by key. -/
abbrev MemoryTree := List (Nat × List MemCell)

/-- Cells recorded at `addr`, if any. -/
def memFind (m : MemoryTree) (addr : Nat) : Option (List MemCell) :=
  match m with
  | [] => none
  | (a, cs) :: rest => if a = addr then some cs else memFind rest addr

/-- Append a cell to the history of `addr`, inserting the key in sorted
order when it is new (the `BTreeMap` entry-or-insert). -/
def memAppend (m : MemoryTree) (addr : Nat) (c : MemCell) : MemoryTree :=
  match m with
  | [] => [(addr, [c])]
  | (a, cs) :: rest =>
    if addr < a then (addr, [c]) :: (a, cs) :: rest
    else if a = addr then (a, cs ++ [c]) :: rest
    else (a, cs) :: memAppend rest addr c

/-- Execution faults.  Names follow `ProcessorError` usage in the sources and
spec §7; the error module itself is not under src/. -/
inductive ProcessorError
  | AssertFail (left right : Nat)
  | U32RangeCheckFail
  | WriteOnceViolation
  | ReadUnwrittenAddr (addr : Nat)
  | ParseIntError
  | UnresolvedPC (pc : Nat)
  | outOfFuel
deriving DecidableEq, Repr

/-- Modelled from the spec: `MemoryTree::write` (executor/src/memory.rs is not
under src/).  Spec §4.F: "write(addr, clk, opcode, is_rw, is_write=1,
filter_looked, region_flags, value) appends a cell; if is_rw indicates
write-once, an existing cell at the same address is a fault." -/
def memWrite (m : MemoryTree) (addr clk : Nat) (op : Option Opcode)
    (isRw isWrite filt rp rpo re value : Nat) :
    Except ProcessorError MemoryTree :=
  if isRw = MemoryType.WriteOnce ∧ (memFind m addr).isSome then
    .error .WriteOnceViolation
  else
    .ok (memAppend m addr
      { clk, op, isRw, isWrite, filterLookedForMain := filt,
        regionProphet := rp, regionPoseidon := rpo, regionEcdsa := re, value })

/-- Modelled from the spec: `MemoryTree::read` (executor/src/memory.rs is not
under src/).  Spec §4.F: "read(...) appends a read cell whose value is the
latest value at addr; ... Reading an unwritten address is a fault." -/
def memRead (m : MemoryTree) (addr clk : Nat) (op : Option Opcode)
    (isRw isWrite filt rp rpo re : Nat) :
    Except ProcessorError (Nat × MemoryTree) :=
  match memFind m addr with
  | none => .error (.ReadUnwrittenAddr addr)
  | some cells =>
    match cells.getLast? with
    | none => .error (.ReadUnwrittenAddr addr)
    | some last =>
      .ok (last.value, memAppend m addr
        { clk, op, isRw, isWrite, filterLookedForMain := filt,
          regionProphet := rp, regionPoseidon := rpo, regionEcdsa := re,
          value := last.value })

/-- A row of the range-check trace: `insert_rangecheck(value, (f0,f1,f2,f3))`.
The four filter flags select the looking table (memory sort, cpu, comparison,
storage in the order the call sites use them). -/
structure RcRow where
  val : Nat
  filter0 : Nat
  filter1 : Nat
  filter2 : Nat
  filter3 : Nat
deriving DecidableEq, Repr

/-- A row of the bitwise trace: `insert_bitwise_combined(opcode, op0, op1,
res)`; the opcode tag is kept symbolic (see `Opcode`). -/
structure BitwiseRow where
  op : Opcode
  op0 : Nat
  op1 : Nat
  res : Nat
deriving DecidableEq, Repr

/-- A row of the comparison trace: `insert_cmp(op0, op1, dst, abs_diff, 1)`. -/
structure CmpRow where
  op0 : Nat
  op1 : Nat
  dst : Nat
  absDiff : Nat
  filter : Nat
deriving DecidableEq, Repr

/-- A resolved operand string of an executed text instruction, as classified
by `Process::get_index_value`: a numeral, a register name, or the register
index `REG_NOT_USED` that stands for the PSP. -/
inductive Operand
  | imm (v : Nat)
  | reg (r : Nat)
  | psp
deriving DecidableEq, Repr

/-- One decoded text instruction, mirroring the opcode dispatch of
`Process::execute`.  Register operands are the `usize` indices produced by
`get_reg_index`; `mstore`/`mload` carry the optional decimal offset word
(`ops[3]`).  The storage and poseidon arms are outside the claims and the
`sub` arm panics in the source. -/
inductive Instr
  | mov (dst : Nat) (op1 : Operand)
  | notInstr (dst : Nat) (op1 : Operand)
  | eq (dst op0 : Nat) (op1 : Operand)
  | neq (dst op0 : Nat) (op1 : Operand)
  | assertInstr (op0 : Nat) (op1 : Operand)
  | cjmp (op0 : Nat) (op1 : Operand)
  | jmp (op1 : Operand)
  | add (dst op0 : Nat) (op1 : Operand)
  | mul (dst op0 : Nat) (op1 : Operand)
  | call (op1 : Operand)
  | ret
  | mstore (op1 : Operand) (op0 : Nat) (offset : Option Nat)
  | mload (dst : Nat) (op1 : Operand) (offset : Option Nat)
  | range (op1 : Nat)
  | and (dst op0 : Nat) (op1 : Operand)
  | or (dst op0 : Nat) (op1 : Operand)
  | xor (dst op0 : Nat) (op1 : Operand)
  | gte (dst op0 : Nat) (op1 : Operand)
  | endInstr
deriving DecidableEq, Repr

/-- A program entry at a binary PC: the decoded instruction together with its
binary length `step` (`program.trace.instructions` value). -/
structure ProgEntry where
  instr : Instr
  step : Nat
deriving DecidableEq, Repr

/-- The interpreter state (`Process`): clk, pc, the ten register slots
(`registers[0..=9]`, where slot 9 is `FP_REG_INDEX`), PSP, HP, the memory map
and the builtin trace buffers touched by the embedded arms.  The cpu-trace
snapshot (`insert_step`) and the `register_selector` bookkeeping feed no
register, memory or control-flow decision and are not claim-relevant, so they
are not carried. -/
structure ProcState where
  clk : Nat
  pc : Nat
  registers : List Nat
  psp : Nat
  hp : Nat
  memory : MemoryTree
  rcRows : List RcRow
  bitwiseRows : List BitwiseRow
  cmpRows : List CmpRow
deriving DecidableEq, Repr

/-- `Process::new()`: zeroed registers, `psp = PSP_START_ADDR`,
`hp = HP_START_ADDR`, empty memory and traces. -/
def procInit : ProcState :=
  { clk := 0, pc := 0, registers := List.replicate 10 0,
    psp := PSP_START_ADDR, hp := HP_START_ADDR,
    memory := [], rcRows := [], bitwiseRows := [], cmpRows := [] }

/-- Register read `self.registers[i]`. -/
def ProcState.reg (st : ProcState) (i : Nat) : Nat := st.registers.getD i 0

/-- Register write `self.registers[i] = v`. -/
def ProcState.setReg (st : ProcState) (i : Nat) (v : Nat) : ProcState :=
  { st with registers := st.registers.set i v }

/-- `Process::get_index_value`: a numeral operand is the immediate itself, a
register operand reads the register, and the `REG_NOT_USED` index reads the
PSP. -/
def ProcState.opValue (st : ProcState) : Operand → Nat
  | .imm v => v
  | .reg r => st.reg r
  | .psp => st.psp

/-- `u64` wrapping subtraction of 1 (`self.registers[FP_REG_INDEX].0 - 1`). -/
def u64SubOne (x : Nat) : Nat := (x + (2 ^ 64 - 1)) % 2 ^ 64

/-- `u64` wrapping subtraction of 2 (`self.registers[FP_REG_INDEX].0 - 2`). -/
def u64SubTwo (x : Nat) : Nat := (x + (2 ^ 64 - 2)) % 2 ^ 64

/-- `u64` wrapping subtraction (`a - b` on `u64` panics in debug builds on
underflow and wraps in release builds; the wrap is modelled). -/
def u64WrapSub (a b : Nat) : Nat := (a + (2 ^ 64 - b % 2 ^ 64)) % 2 ^ 64

/-- One iteration of the `Process::execute` dispatch loop at the fetched
instruction, arm by arm.  Register equality (`==`, `is_one`) is equality of
canonical values; `and`/`or`/`xor` store the raw bit-operation of the
representations (`GoldilocksField(a.0 | b.0)` in the source); `cjmp`/`jmp`
load the raw representation into the PC (`op1_value.0 .0`); `gte` and `range`
compare raw representations (`.0 >=`, `.0 > u32::MAX`). -/
def processStep (st : ProcState) (e : ProgEntry) :
    Except ProcessorError ProcState :=
  let step := e.step
  match e.instr with
  | .mov dst op1 =>
    let value := st.opValue op1
    .ok { st.setReg dst value with pc := st.pc + step }
  | .notInstr dst op1 =>
    let value := st.opValue op1
    .ok { st.setReg dst (gNot value) with pc := st.pc + step }
  | .eq dst op0 op1 =>
    let value := st.opValue op1
    let d := if toCanonical (st.reg op0) = toCanonical value then 1 else 0
    .ok { st.setReg dst d with pc := st.pc + step }
  | .neq dst op0 op1 =>
    let value := st.opValue op1
    let d := if toCanonical (st.reg op0) = toCanonical value then 0 else 1
    .ok { st.setReg dst d with pc := st.pc + step }
  | .assertInstr op0 op1 =>
    let value := st.opValue op1
    if toCanonical (st.reg op0) ≠ toCanonical value then
      .error (.AssertFail (st.reg op0) value)
    else
      .ok { st with pc := st.pc + step }
  | .cjmp op0 op1 =>
    let value := st.opValue op1
    if toCanonical (st.reg op0) = 1 then .ok { st with pc := value }
    else .ok { st with pc := st.pc + step }
  | .jmp op1 =>
    .ok { st with pc := st.opValue op1 }
  | .add dst op0 op1 =>
    let value := st.opValue op1
    .ok { st.setReg dst (gAdd (st.reg op0) value) with pc := st.pc + step }
  | .mul dst op0 op1 =>
    let value := st.opValue op1
    .ok { st.setReg dst (gMul (st.reg op0) value) with pc := st.pc + step }
  | .call op1 => do
    let callAddr := st.opValue op1
    let fp := st.reg 9
    let m1 ← memWrite st.memory (u64SubOne fp) st.clk (some .CALL)
      MemoryType.ReadWrite 1 1 0 0 0 (st.pc + step)
    let r ← memRead m1 (u64SubTwo fp) st.clk (some .CALL)
      MemoryType.ReadWrite 0 1 0 0 0
    .ok { st with memory := r.2, pc := callAddr }
  | .ret => do
    let fp := st.reg 9
    let r1 ← memRead st.memory (u64SubOne fp) st.clk (some .RET)
      MemoryType.ReadWrite 0 1 0 0 0
    let r2 ← memRead r1.2 (u64SubTwo fp) st.clk (some .RET)
      MemoryType.ReadWrite 0 1 0 0 0
    .ok { st.setReg 9 r2.1 with memory := r2.2, pc := r1.1 }
  | .mstore op1 op0 offset => do
    let op1v := st.opValue op1
    let offsetAddr := offset.getD 0
    let addr := (op1v + offsetAddr) % ORDER
    let m ← memWrite st.memory addr st.clk (some .MSTORE)
      MemoryType.ReadWrite 1 1 0 0 0 (st.reg op0)
    .ok { st with memory := m, pc := st.pc + step }
  | .mload dst op1 offset => do
    let op1v := st.opValue op1
    let offsetAddr := offset.getD 0
    let readAddr := (op1v + offsetAddr) % ORDER
    let f := regionFlags (regionOf readAddr)
    let r ← memRead st.memory readAddr st.clk (some .MLOAD)
      f.1 0 1 f.2.1 f.2.2.1 f.2.2.2
    .ok { st.setReg dst r.1 with memory := r.2, pc := st.pc + step }
  | .range op1 =>
    if st.reg op1 > 2 ^ 32 - 1 then .error .U32RangeCheckFail
    else
      .ok { st with rcRows := st.rcRows ++ [⟨st.reg op1, 0, 1, 0, 0⟩],
                    pc := st.pc + step }
  | .and dst op0 op1 =>
    let op0v := st.reg op0
    let op1v := st.opValue op1
    let res := Nat.land op0v op1v
    .ok { st.setReg dst res with
          bitwiseRows := st.bitwiseRows ++ [⟨.AND, op0v, op1v, res⟩],
          pc := st.pc + step }
  | .or dst op0 op1 =>
    let op0v := st.reg op0
    let op1v := st.opValue op1
    let res := Nat.lor op0v op1v
    .ok { st.setReg dst res with
          bitwiseRows := st.bitwiseRows ++ [⟨.OR, op0v, op1v, res⟩],
          pc := st.pc + step }
  | .xor dst op0 op1 =>
    let op0v := st.reg op0
    let op1v := st.opValue op1
    let res := Nat.xor op0v op1v
    .ok { st.setReg dst res with
          bitwiseRows := st.bitwiseRows ++ [⟨.XOR, op0v, op1v, res⟩],
          pc := st.pc + step }
  | .gte dst op0 op1 =>
    let op0v := st.reg op0
    let op1v := st.opValue op1
    let d := if op1v ≤ op0v then 1 else 0
    let absDiff := if d = 1 then gSub op0v op1v else gSub op1v op0v
    .ok { st.setReg dst d with
          rcRows := st.rcRows ++ [⟨absDiff, 0, 0, 1, 0⟩],
          cmpRows := st.cmpRows ++ [⟨op0v, op1v, d, absDiff, 1⟩],
          pc := st.pc + step }
  | .endInstr => .ok st

/-- Binary-PC lookup into `program.trace.instructions`. -/
def lookupPC (prog : List (Nat × ProgEntry)) (pc : Nat) : Option ProgEntry :=
  match prog with
  | [] => none
  | (a, e) :: rest => if a = pc then some e else lookupPC rest pc

/-- The `Process::execute` dispatch loop: fetch at the current PC, run the
arm, stop at `end` or once the PC leaves the program, and otherwise advance
`clk` and continue.  The loop is bounded by fuel (a model artifact; the
claims run with ample fuel). -/
def processRun : Nat → List (Nat × ProgEntry) → Nat → ProcState →
    Except ProcessorError ProcState
  | 0, _, _, _ => .error .outOfFuel
  | fuel + 1, prog, instrsLen, st =>
    match lookupPC prog st.pc with
    | none => .error (.UnresolvedPC st.pc)
    | some e =>
      match processStep st e with
      | .error er => .error er
      | .ok st2 =>
        match e.instr with
        | .endInstr => .ok st2
        | _ =>
          if instrsLen ≤ st2.pc then .ok st2
          else processRun fuel prog instrsLen { st2 with clk := st2.clk + 1 }

/-- The scripting collaborator's result:
`run(code_body, inputs) -> Single(u64) | Multiple([Number])`. -/
inductive NumberRet
  | Single (v : Nat)
  | Multiple (vs : List Nat)
deriving DecidableEq, Repr

/-- The write loop of `Process::prophet`: each remaining value is written to
write-once memory at the PSP (`write(psp.0, 0, 0, WriteOnce, Write, False,
1, 0, 0, value)`) and the PSP advances by one per value. -/
def prophetWriteValues (st : ProcState) : List Nat →
    Except ProcessorError ProcState
  | [] => .ok st
  | v :: rest => do
    let m ← memWrite st.memory st.psp 0 none MemoryType.WriteOnce 1 0 1 0 0 v
    prophetWriteValues { st with memory := m, psp := st.psp + 1 } rest

/-- The output handling of `Process::prophet` (executor/src/lib.rs): a
`Single` result is the `ParseIntError` fault; for `Multiple`, the popped last
value becomes the new HP and the remaining values are written at PSP, PSP+1,
...  (`values.pop().unwrap()` panics on an empty list, embedded as the same
fault). -/
def Process.prophetHandleOutput (st : ProcState) (res : NumberRet) :
    Except ProcessorError ProcState :=
  match res with
  | .Single _ => .error .ParseIntError
  | .Multiple values =>
    match values.getLast? with
    | none => .error .ParseIntError
    | some hpVal => prophetWriteValues { st with hp := hpVal } values.dropLast

/-! ## Operand and immediate parsing (core/src/vm/operands.rs)

Rust `&str` values are embedded as their character sequences (`List Char`). -/

/-- `[[:digit:]]`. -/
def isDigitChar (c : Char) : Bool := decide ('0' ≤ c ∧ c ≤ '9')

/-- Value of a decimal digit character. -/
def digitVal (c : Char) : Nat := c.toNat - '0'.toNat

/-- Value of a hexadecimal digit character (`0-9a-fA-F`), if any. -/
def hexDigitVal? (c : Char) : Option Nat :=
  if '0' ≤ c ∧ c ≤ '9' then some (c.toNat - '0'.toNat)
  else if 'a' ≤ c ∧ c ≤ 'f' then some (c.toNat - 'a'.toNat + 10)
  else if 'A' ≤ c ∧ c ≤ 'F' then some (c.toNat - 'A'.toNat + 10)
  else none

/-- Accumulating decimal-digit fold; `none` on a non-digit. -/
def digitsValAcc (acc : Nat) : List Char → Option Nat
  | [] => some acc
  | c :: rest =>
    if isDigitChar c then digitsValAcc (acc * 10 + digitVal c) rest else none

/-- Value of a nonempty all-decimal-digit string. -/
def decDigitsVal? (s : List Char) : Option Nat :=
  if s.isEmpty then none else digitsValAcc 0 s

/-- Value of a signed decimal literal (`[+-]? [0-9]+`), without any integer
range bound. -/
def signedDecValue? : List Char → Option Int
  | '-' :: rest => (decDigitsVal? rest).map (fun n => -(n : Int))
  | '+' :: rest => (decDigitsVal? rest).map (fun n => (n : Int))
  | s => (decDigitsVal? s).map (fun n => (n : Int))

/-- `i128::from_str_radix(s, 10)`: the signed decimal grammar restricted to
the `i128` range; out-of-range and malformed inputs are errors. -/
def rustParseI128Dec (s : List Char) : Option Int :=
  match signedDecValue? s with
  | none => none
  | some v => if -(2 ^ 127 : Int) ≤ v ∧ v < 2 ^ 127 then some v else none

/-- Accumulating hexadecimal-digit fold; `none` on a non-hex-digit. -/
def hexDigitsValAcc (acc : Nat) : List Char → Option Nat
  | [] => some acc
  | c :: rest =>
    match hexDigitVal? c with
    | some d => hexDigitsValAcc (acc * 16 + d) rest
    | none => none

/-- Value of a nonempty all-hexadecimal-digit string. -/
def hexDigitsVal? (s : List Char) : Option Nat :=
  if s.isEmpty then none else hexDigitsValAcc 0 s

/-- `u64::from_str_radix(s, 16)`: optional `+` sign, then nonempty hex
digits, restricted to the `u64` range. -/
def rustParseU64Hex (s : List Char) : Option Nat :=
  match hexDigitsVal? (if s.head? = some '+' then s.tail else s) with
  | none => none
  | some v => if v < 2 ^ 64 then some v else none

/-- `s.starts_with("0x")`. -/
def startsWith0x (s : List Char) : Bool :=
  match s with
  | c1 :: c2 :: _ => c1 = '0' && c2 = 'x'
  | _ => false

/-- `s.trim_start_matches("0x")`: removes every repeated leading `0x`. -/
def trimStartMatches0x (s : List Char) : List Char :=
  match s with
  | c1 :: c2 :: rest =>
    if c1 = '0' ∧ c2 = 'x' then trimStartMatches0x rest else c1 :: c2 :: rest
  | _ => s

/-- `format!("{:#x}", v)`: `0x` followed by lowercase hex digits. -/
def hexFormat (v : Nat) : List Char := '0' :: 'x' :: Nat.toDigits 16 v

/-- `ImmediateValue`: the canonical hex string. -/
structure ImmediateValue where
  hex : List Char
deriving DecidableEq, Repr

/-- The two rejection messages of `ImmediateValue::from_str`. -/
inductive ImmError
  | notValidNumber (s : List Char)
  | overflow (s : List Char)
deriving DecidableEq, Repr

/-- `ImmediateValue::from_str`: a `0x`-prefixed input is parsed as hex `u64`
and rejected at `ORDER`; any other input is parsed as a signed decimal
`i128`, rejected when `|value| ≥ ORDER`, and a negative value is stored as
`ORDER - |value|`; the accepted value is stored as its `{:#x}` rendering. -/
def ImmediateValue.fromStr (s : List Char) : Except ImmError ImmediateValue :=
  if startsWith0x s then
    match rustParseU64Hex (trimStartMatches0x s) with
    | none => .error (.notValidNumber s)
    | some value =>
      if ORDER ≤ value then .error (.overflow s)
      else .ok ⟨hexFormat value⟩
  else
    match rustParseI128Dec s with
    | none => .error (.notValidNumber s)
    | some value =>
      if (ORDER : Int) ≤ value ∨ (ORDER : Int) ≤ value * (-1) then
        .error (.overflow s)
      else
        .ok ⟨hexFormat
          (if value < 0 then ((ORDER : Int) - (value.natAbs : Int)).toNat
           else value.toNat)⟩

/-- `ImmediateValue::to_u64`: hex-parse of the stored string after trimming
the `0x` prefixes. -/
def ImmediateValue.toU64 (v : ImmediateValue) : Option Nat :=
  rustParseU64Hex (trimStartMatches0x v.hex)

/-- The nine general-purpose registers `r0`..`r8`. -/
inductive OlaRegister
  | R0 | R1 | R2 | R3 | R4 | R5 | R6 | R7 | R8
deriving DecidableEq, Repr

/-- Modelled from the spec: `Display for OlaRegister` (hardware.rs is not
under src/) renders `r0`..`r8`. -/
def OlaRegister.token : OlaRegister → List Char
  | .R0 => ['r', '0']
  | .R1 => ['r', '1']
  | .R2 => ['r', '2']
  | .R3 => ['r', '3']
  | .R4 => ['r', '4']
  | .R5 => ['r', '5']
  | .R6 => ['r', '6']
  | .R7 => ['r', '7']
  | .R8 => ['r', '8']

/-- Modelled from the spec: `OlaRegister::from_str` (hardware.rs is not under
src/) accepts exactly `r0`..`r8`. -/
def OlaRegister.fromStr : List Char → Except (List Char) OlaRegister
  | ['r', '0'] => .ok .R0
  | ['r', '1'] => .ok .R1
  | ['r', '2'] => .ok .R2
  | ['r', '3'] => .ok .R3
  | ['r', '4'] => .ok .R4
  | ['r', '5'] => .ok .R5
  | ['r', '6'] => .ok .R6
  | ['r', '7'] => .ok .R7
  | ['r', '8'] => .ok .R8
  | s => .error s

/-- Special registers `pc` and `psp`. -/
inductive OlaSpecialRegister
  | PC
  | PSP
deriving DecidableEq, Repr

/-- Modelled from the spec: `Display for OlaSpecialRegister` renders `pc` /
`psp` (hardware.rs is not under src/; the operand tests parse `psp`). -/
def OlaSpecialRegister.token : OlaSpecialRegister → List Char
  | .PC => ['p', 'c']
  | .PSP => ['p', 's', 'p']

/-- Modelled from the spec: `OlaSpecialRegister::from_str` accepts exactly
`pc` and `psp`. -/
def OlaSpecialRegister.fromStr : List Char → Except (List Char) OlaSpecialRegister
  | ['p', 'c'] => .ok .PC
  | ['p', 's', 'p'] => .ok .PSP
  | s => .error s

/-- `OlaOperand` (core/src/vm/operands.rs). -/
inductive OlaOperand
  | ImmediateOperand (value : ImmediateValue)
  | RegisterOperand (register : OlaRegister)
  | RegisterWithOffset (register : OlaRegister) (offset : ImmediateValue)
  | RegisterWithFactor (register : OlaRegister) (factor : ImmediateValue)
  | SpecialReg (specialReg : OlaSpecialRegister)
deriving DecidableEq, Repr

/-- `OlaOperand::get_asm_token`: the immediate prints its hex string, a
register/special register its name, `[reg,offset-hex]` for register with
offset and `factor-hex*reg` for register with factor. -/
def OlaOperand.getAsmToken : OlaOperand → List Char
  | .ImmediateOperand value => value.hex
  | .RegisterOperand register => register.token
  | .RegisterWithOffset register offset =>
    '[' :: (register.token ++ ',' :: (offset.hex ++ [']']))
  | .SpecialReg specialReg => specialReg.token
  | .RegisterWithFactor register factor =>
    factor.hex ++ '*' :: register.token

/-- The `^-?[[:digit:]]+$` test of the immediate-operand regex. -/
def matchesSignedDigits : List Char → Bool
  | [] => false
  | '-' :: rest => !rest.isEmpty && rest.all isDigitChar
  | s => s.all isDigitChar

/-- The capture of the `^\[(?P<reg>r[0-8]),(?P<offset>-?[[:digit:]]+)\]$`
regex: the register name and the offset substring, when the whole input
matches. -/
def regOffsetParts? (s : List Char) : Option (List Char × List Char) :=
  match s with
  | '[' :: 'r' :: d :: ',' :: rest =>
    if '0' ≤ d ∧ d ≤ '8' then
      match rest.getLast? with
      | some ']' =>
        let body := rest.dropLast
        if matchesSignedDigits body then some (['r', d], body) else none
      | _ => none
    else none
  | _ => none

/-- Errors of `OlaOperand::from_str` (the source carries message strings;
the three shapes are the propagated immediate error, the propagated register
error and the final "invalid operand"). -/
inductive OperandError
  | immediate (e : ImmError)
  | register (s : List Char)
  | invalid (s : List Char)
deriving DecidableEq, Repr

/-- The immediate-then-special-register tail of `OlaOperand::from_str`. -/
def olaOperandFromStrImm (s : List Char) : Except OperandError OlaOperand :=
  if matchesSignedDigits s then
    match ImmediateValue.fromStr s with
    | .error e => .error (.immediate e)
    | .ok value => .ok (.ImmediateOperand value)
  else
    match OlaSpecialRegister.fromStr s with
    | .ok sr => .ok (.SpecialReg sr)
    | .error _ => .error (.invalid s)

/-- The `^(?P<reg>r[0-8])$` stage of `OlaOperand::from_str`. -/
def olaOperandFromStrReg (s : List Char) : Except OperandError OlaOperand :=
  match s with
  | ['r', d] =>
    if '0' ≤ d ∧ d ≤ '8' then
      match OlaRegister.fromStr ['r', d] with
      | .error e => .error (.register e)
      | .ok register => .ok (.RegisterOperand register)
    else olaOperandFromStrImm ['r', d]
  | other => olaOperandFromStrImm other

/-- `OlaOperand::from_str`: register-with-offset, register, immediate and
special register are tried in order; anything else is an invalid operand. -/
def OlaOperand.fromStr (s : List Char) : Except OperandError OlaOperand :=
  match regOffsetParts? s with
  | some (strReg, strOffset) =>
    match OlaRegister.fromStr strReg with
    | .error e => .error (.register e)
    | .ok register =>
      match ImmediateValue.fromStr strOffset with
      | .error e => .error (.immediate e)
      | .ok offset => .ok (.RegisterWithOffset register offset)
  | none => olaOperandFromStrReg s

/-! ## The alternative runner (executor/src/runner.rs)

The runner operates on `BinaryInstruction` values over `OlaOperand`.  Its
intermediate cpu/bitwise/comparison trace rows feed no register, pc or fault
decision and are not claim-relevant, so the step function carries only the
context; the prophet memory rows are modelled by `OlaRunner.onProphetOutputs`.
The `CALL`/`RET`/`MLOAD`/`MSTORE` arms act on the runner memory
(`vm::ola_vm`, not under src/) and are outside the claims; stepping onto them
is embedded as a dedicated error. -/

/-- The runner's opcode set: exactly the variants matched by
`OlaRunner::run_one_step`. -/
inductive OlaOpcode
  | ADD | MUL | EQ | ASSERT | MOV | JMP | CJMP | CALL | RET
  | MLOAD | MSTORE | END | RC | AND | OR | XOR | NOT | NEQ | GTE
deriving DecidableEq, Repr

/-- Whether an operand carries an immediate (used by the binary length). -/
def OlaOperand.hasImmediate : OlaOperand → Bool
  | .ImmediateOperand _ => true
  | .RegisterWithOffset _ _ => true
  | .RegisterWithFactor _ _ => true
  | _ => false

/-- A binary instruction: opcode and optional operands.  The attached prophet
is handled separately (`OlaRunner.onProphetOutputs`). -/
structure BinaryInstruction where
  opcode : OlaOpcode
  op0 : Option OlaOperand
  op1 : Option OlaOperand
  dst : Option OlaOperand
deriving DecidableEq, Repr

/-- Modelled from the spec: `BinaryInstruction::binary_length` (the assembler
instruction module is not under src/).  Spec §4.C: "binary_length = 2 if any
operand is an immediate/label/identifier/reg-with-offset containing an
immediate, otherwise 1". -/
def BinaryInstruction.binaryLength (i : BinaryInstruction) : Nat :=
  if i.op0.any OlaOperand.hasImmediate || i.op1.any OlaOperand.hasImmediate
      || i.dst.any OlaOperand.hasImmediate then 2
  else 1

/-- Runner faults; names follow the `OlaRunnerError` variants used in
runner.rs (the error module is not under src/).  `MissingOperand` stands for
the source's `unwrap()` of an absent operand, `UnmodelledMemoryArm` and
`OutOfFuel` are model artifacts. -/
inductive RunnerError
  | RunAfterEnded
  | InstructionNotFound (clk pc : Nat)
  | AssertFail (clk pc op0 op1 : Nat)
  | FlagNotBinary (clk pc flag : Nat)
  | RangeCheckFailed (value : Nat)
  | ProphetReturnType
  | ParseIntError
  | PcOperand
  | InvalidDstOperand
  | InvalidTwoOperandsOpcode
  | NoFactorOperand
  | MissingOperand
  | UnmodelledMemoryArm
  | OutOfFuel
deriving DecidableEq, Repr

/-- Register slot of `OlaRegister` in the runner's register file. -/
def OlaRegister.index : OlaRegister → Nat
  | .R0 => 0 | .R1 => 1 | .R2 => 2 | .R3 => 3 | .R4 => 4
  | .R5 => 5 | .R6 => 6 | .R7 => 7 | .R8 => 8

/-- The runner context (`OlaContext`, vm::ola_vm): clk, pc, psp and the nine
general-purpose registers.  The memory is not carried (see the section
comment). -/
structure RunnerContext where
  clk : Nat
  pc : Nat
  psp : Nat
  registers : List Nat
deriving DecidableEq, Repr

/-- Modelled from the spec: `OlaContext::default()` (vm::ola_vm is not under
src/): zeroed clk/pc/registers; the PSP starts at the prophet region start. -/
def runnerInit : RunnerContext :=
  { clk := 0, pc := 0, psp := PSP_START_ADDR, registers := List.replicate 9 0 }

/-- `OlaRunner::get_register_value`. -/
def RunnerContext.getRegisterValue (ctx : RunnerContext) (r : OlaRegister) : Nat :=
  ctx.registers.getD r.index 0

/-- `OlaRunner::get_operand_value`: an immediate is its parsed `u64`
representation, a register reads the register file, register-with-offset adds
the offset, the PC is not a valid operand and the PSP reads the context PSP.
The runner's operand type (assembler/src/operands.rs, not under src/) has no
factor variant, embedded as an error. -/
def RunnerContext.getOperandValue (ctx : RunnerContext) :
    OlaOperand → Except RunnerError Nat
  | .ImmediateOperand value =>
    match value.toU64 with
    | some v => .ok v
    | none => .error .ParseIntError
  | .RegisterOperand register => .ok (ctx.getRegisterValue register)
  | .RegisterWithOffset register offset =>
    match offset.toU64 with
    | some v => .ok (gAdd (ctx.getRegisterValue register) v)
    | none => .error .ParseIntError
  | .RegisterWithFactor _ _ => .error .NoFactorOperand
  | .SpecialReg sr =>
    match sr with
    | .PC => .error .PcOperand
    | .PSP => .ok ctx.psp

/-- Operand fetch through the source's `unwrap()`. -/
def RunnerContext.getOperand (ctx : RunnerContext) :
    Option OlaOperand → Except RunnerError Nat
  | some o => ctx.getOperandValue o
  | none => .error .MissingOperand

/-- `OlaRunner::update_dst_reg`: the destination must be a register operand. -/
def RunnerContext.updateDstReg (ctx : RunnerContext) (result : Nat)
    (dstOperand : OlaOperand) : Except RunnerError RunnerContext :=
  match dstOperand with
  | .RegisterOperand register =>
    .ok { ctx with registers := ctx.registers.set register.index result }
  | _ => .error .InvalidDstOperand

/-- `OlaRunner::on_two_operands_arithmetic_op`: the result for
add/mul/eq/and/or/xor/neq/gte; equality and comparison use the raw `u64`
representations (`trace_op0.0 == trace_op1.0`, `.0 >= .0`); bitwise uses raw
bit-operations.  Afterwards clk and pc advance and the destination register
is updated. -/
def onTwoOperandsArithmetic (ctx : RunnerContext) (i : BinaryInstruction) :
    Except RunnerError RunnerContext := do
  let op0v ← ctx.getOperand i.op0
  let op1v ← ctx.getOperand i.op1
  let dstv ←
    match i.opcode with
    | .ADD => Except.ok (gAdd op0v op1v)
    | .MUL => Except.ok (gMul op0v op1v)
    | .EQ => Except.ok (if op0v = op1v then 1 else 0)
    | .AND => Except.ok (Nat.land op0v op1v)
    | .OR => Except.ok (Nat.lor op0v op1v)
    | .XOR => Except.ok (Nat.xor op0v op1v)
    | .NEQ => Except.ok (if op0v = op1v then 0 else 1)
    | .GTE => Except.ok (if op1v ≤ op0v then 1 else 0)
    | _ => Except.error .InvalidTwoOperandsOpcode
  let ctx2 := { ctx with clk := ctx.clk + 1, pc := ctx.pc + i.binaryLength }
  match i.dst with
  | some d => ctx2.updateDstReg dstv d
  | none => .error .MissingOperand

/-- One step of `OlaRunner::run_one_step` at a fetched instruction, arm by
arm.  `ASSERT` compares the raw representations (`trace_op0.0 !=
trace_op1.0`); `CJMP` requires the raw flag to be 0 or 1; `RC` checks the
canonical value (`to_canonical_u64`); `JMP`/`CJMP` load the raw
representation into the PC. -/
def runnerStep (ctx : RunnerContext) (i : BinaryInstruction) :
    Except RunnerError RunnerContext :=
  match i.opcode with
  | .ADD | .MUL | .EQ | .AND | .OR | .XOR | .NEQ | .GTE =>
    onTwoOperandsArithmetic ctx i
  | .ASSERT => do
    let op0v ← ctx.getOperand i.op0
    let op1v ← ctx.getOperand i.op1
    if op0v ≠ op1v then .error (.AssertFail ctx.clk ctx.pc op0v op1v)
    else .ok { ctx with clk := ctx.clk + 1, pc := ctx.pc + i.binaryLength }
  | .MOV => do
    let op1v ← ctx.getOperand i.op1
    let ctx2 := { ctx with clk := ctx.clk + 1, pc := ctx.pc + i.binaryLength }
    match i.dst with
    | some d => ctx2.updateDstReg op1v d
    | none => .error .MissingOperand
  | .JMP => do
    let op1v ← ctx.getOperand i.op1
    .ok { ctx with clk := ctx.clk + 1, pc := op1v }
  | .CJMP => do
    let op0v ← ctx.getOperand i.op0
    let op1v ← ctx.getOperand i.op1
    if op0v ≠ 0 ∧ op0v ≠ 1 then .error (.FlagNotBinary ctx.clk ctx.pc op0v)
    else
      let newPc := if op0v = 1 then op1v else ctx.pc + i.binaryLength
      .ok { ctx with clk := ctx.clk + 1, pc := newPc }
  | .END => .ok ctx
  | .RC => do
    let op1v ← ctx.getOperand i.op1
    let value := toCanonical op1v
    if 2 ^ 32 ≤ value then .error (.RangeCheckFailed value)
    else .ok { ctx with clk := ctx.clk + 1, pc := ctx.pc + i.binaryLength }
  | .NOT => do
    let op1v ← ctx.getOperand i.op1
    let ctx2 := { ctx with clk := ctx.clk + 1, pc := ctx.pc + i.binaryLength }
    match i.dst with
    | some d => ctx2.updateDstReg (gNot op1v) d
    | none => .error .MissingOperand
  | .CALL | .RET | .MLOAD | .MSTORE => .error .UnmodelledMemoryArm

/-- PC lookup into the runner's instruction map. -/
def lookupBinPC (prog : List (Nat × BinaryInstruction)) (pc : Nat) :
    Option BinaryInstruction :=
  match prog with
  | [] => none
  | (a, i) :: rest => if a = pc then some i else lookupBinPC rest pc

/-- The runner loop: fetch at the current PC, step, stop at `END`
(`is_ended`).  Bounded by fuel (model artifact). -/
def runnerRun : Nat → List (Nat × BinaryInstruction) → RunnerContext →
    Except RunnerError RunnerContext
  | 0, _, _ => .error .OutOfFuel
  | fuel + 1, prog, ctx =>
    match lookupBinPC prog ctx.pc with
    | none => .error (.InstructionNotFound ctx.clk ctx.pc)
    | some i =>
      match runnerStep ctx i with
      | .error e => .error e
      | .ok ctx2 =>
        match i.opcode with
        | .END => .ok ctx2
        | _ => runnerRun fuel prog ctx2

/-- A memory row recorded by the runner (`IntermediateRowMemory`). -/
structure IntermediateRowMemory where
  addr : Nat
  value : Nat
  isWrite : Bool
  opcode : Option OlaOpcode
deriving DecidableEq, Repr

/-- The output handling of `OlaRunner::on_prophet`: a `Single` result is the
prophet-return-type fault; for `Multiple`, every returned value is pushed as
a write row at the address `self.context.psp`, and after the loop the PSP
advances by one. -/
def OlaRunner.onProphetOutputs (ctx : RunnerContext) (result : NumberRet) :
    Except RunnerError (List IntermediateRowMemory × RunnerContext) :=
  match result with
  | .Single _ => .error .ProphetReturnType
  | .Multiple values =>
    .ok (values.map
          (fun v => { addr := ctx.psp, value := v, isWrite := true,
                      opcode := none }),
        { ctx with psp := ctx.psp + 1 })

/-! ## Memory trace post-processing (`Process::gen_memory_table`) -/

/-- A row of the post-processed memory trace (`MemoryTraceCell`). -/
structure MemoryTraceCell where
  addr : Nat
  clk : Nat
  isRw : Nat
  op : Option Opcode
  isWrite : Nat
  diffAddr : Nat
  diffAddrInv : Nat
  diffClk : Nat
  diffAddrCond : Nat
  filterLookedForMain : Nat
  rwAddrUnchanged : Nat
  regionProphet : Nat
  regionPoseidon : Nat
  regionEcdsa : Nat
  value : Nat
  filterLookingRc : Nat
  rcValue : Nat
deriving DecidableEq, Repr

/-- The per-cell `diff_addr_cond` / `write_one_flag` update: the distance to
the region boundary for a flagged cell (using `REGION_SPAN`), 0 otherwise;
the flag is set by a flagged cell and otherwise keeps its previous value. -/
def diffAddrCondOf (canonicalAddr : Nat) (cell : MemCell) (writeOne : Bool) :
    Nat × Bool :=
  if cell.regionProphet = 1 then (ORDER - canonicalAddr, true)
  else if cell.regionPoseidon = 1 then (ORDER - REGION_SPAN - canonicalAddr, true)
  else if cell.regionEcdsa = 1 then
    (ORDER - 2 * REGION_SPAN - canonicalAddr, true)
  else (0, writeOne)

/-- The inner cell loop of `gen_memory_table` for one address: produces the
trace rows and threads `(first_row_flag, origin_clk)` to the next address.
The three branches are the very first row of the table, the first row of a
new address, and a continuing row of the same address. The subtractions
`canonical_addr - origin_addr` and `cell.clk as u64 - origin_clk` are `u64`
subtractions, so they wrap (release-build semantics) when the minuend is the
smaller. -/
def genCellRows (canonicalAddr originAddr : Nat) :
    List MemCell → Bool → Bool → Bool → Nat →
    List MemoryTraceCell × Bool × Nat
  | [], firstRow, _, _, originClk => ([], firstRow, originClk)
  | cell :: rest, firstRow, newAddr, writeOne, originClk =>
    let dc := diffAddrCondOf canonicalAddr cell writeOne
    let diffAddrCond := dc.1
    let writeOne2 := dc.2
    if firstRow then
      let row : MemoryTraceCell :=
        { addr := canonicalAddr, clk := cell.clk, isRw := cell.isRw,
          op := cell.op, isWrite := cell.isWrite, diffAddr := 0,
          diffAddrInv := 0, diffClk := 0, diffAddrCond,
          filterLookedForMain := cell.filterLookedForMain,
          rwAddrUnchanged := 0, regionProphet := cell.regionProphet,
          regionPoseidon := cell.regionPoseidon,
          regionEcdsa := cell.regionEcdsa, value := cell.value,
          filterLookingRc := 1, rcValue := 0 }
      let next := genCellRows canonicalAddr originAddr rest false false
        writeOne2 cell.clk
      (row :: next.1, next.2.1, next.2.2)
    else if newAddr then
      let diffAddr := u64WrapSub canonicalAddr originAddr
      let inv_rc := if writeOne2 then (0, diffAddrCond)
        else (gInv diffAddr, diffAddr)
      let row : MemoryTraceCell :=
        { addr := canonicalAddr, clk := cell.clk, isRw := cell.isRw,
          op := cell.op, isWrite := cell.isWrite, diffAddr,
          diffAddrInv := inv_rc.1, diffClk := 0, diffAddrCond,
          filterLookedForMain := cell.filterLookedForMain,
          rwAddrUnchanged := 0, regionProphet := cell.regionProphet,
          regionPoseidon := cell.regionPoseidon,
          regionEcdsa := cell.regionEcdsa, value := cell.value,
          filterLookingRc := 1, rcValue := inv_rc.2 }
      let next := genCellRows canonicalAddr originAddr rest false false
        writeOne2 cell.clk
      (row :: next.1, next.2.1, next.2.2)
    else
      let diffClk := u64WrapSub cell.clk originClk
      let unchanged_rc := if cell.isRw = 0 then (0, diffAddrCond)
        else (1, diffClk)
      let row : MemoryTraceCell :=
        { addr := canonicalAddr, clk := cell.clk, isRw := cell.isRw,
          op := cell.op, isWrite := cell.isWrite, diffAddr := 0,
          diffAddrInv := 0, diffClk, diffAddrCond,
          filterLookedForMain := cell.filterLookedForMain,
          rwAddrUnchanged := unchanged_rc.1,
          regionProphet := cell.regionProphet,
          regionPoseidon := cell.regionPoseidon,
          regionEcdsa := cell.regionEcdsa, value := cell.value,
          filterLookingRc := 1, rcValue := unchanged_rc.2 }
      let next := genCellRows canonicalAddr originAddr rest false false
        writeOne2 cell.clk
      (row :: next.1, next.2.1, next.2.2)

/-- The outer address loop of `gen_memory_table`: the `BTreeMap` iterates the
addresses in ascending key order; each key is canonicalised
(`from_noncanonical_u64(*field_addr).to_canonical_u64()`), its cell list is
emitted, and `origin_addr` becomes the canonical address afterwards. -/
def genMemoryTableAux :
    List (Nat × List MemCell) → Bool → Nat → Nat → List MemoryTraceCell
  | [], _, _, _ => []
  | (fieldAddr, cells) :: rest, firstRow, originAddr, originClk =>
    let canonicalAddr := fieldAddr % ORDER
    let r := genCellRows canonicalAddr originAddr cells firstRow true false
      originClk
    r.1 ++ genMemoryTableAux rest r.2.1 canonicalAddr r.2.2

/-- `Process::gen_memory_table` over the memory map (initial
`origin_addr = origin_clk = 0`, `first_row_flag = true`). -/
def genMemoryTable (mem : List (Nat × List MemCell)) : List MemoryTraceCell :=
  genMemoryTableAux mem true 0 0

/-- The range-check rows inserted by `gen_memory_table`: one per memory row,
carrying its `rc_value` with the memory-sort filter. -/
def genMemoryRcRows (mem : List (Nat × List MemCell)) : List RcRow :=
  (genMemoryTable mem).map (fun r => ⟨r.rcValue, 1, 0, 0, 0⟩)

/-- For one address, the generated rows carry exactly the canonical address
paired with the cells' clk values, in cell order, whatever the flags. -/
theorem genCellRows_map_proj (a oa : Nat) :
    ∀ (cells : List MemCell) (fr na wo : Bool) (oc : Nat),
      (genCellRows a oa cells fr na wo oc).1.map (fun r => (r.addr, r.clk)) =
        cells.map (fun c => (a, c.clk))
  | [], _, _, _, _ => rfl
  | cell :: rest, fr, na, wo, oc => by
    have ih := genCellRows_map_proj a oa rest
    unfold genCellRows
    split_ifs <;> simp only [List.map_cons] <;> rw [ih]

/-- Every row generated for one address carries that canonical address. -/
theorem genCellRows_addr {a oa : Nat} {cells : List MemCell}
    {fr na wo : Bool} {oc : Nat} {r : MemoryTraceCell}
    (h : r ∈ (genCellRows a oa cells fr na wo oc).1) : r.addr = a := by
  have hmem := List.mem_map_of_mem (fun r => (r.addr, r.clk)) h
  rw [genCellRows_map_proj] at hmem
  obtain ⟨c, _, heq⟩ := List.mem_map.mp hmem
  exact (congrArg Prod.fst heq).symm

/-- The rows of one address are chained by the (address, clk) lexicographic
order whenever the cells' clk values strictly increase. -/
theorem genCellRows_chain (a oa : Nat) (cells : List MemCell)
    (h : List.Chain' (fun c1 c2 => c1.clk < c2.clk) cells)
    (fr na wo : Bool) (oc : Nat) :
    List.Chain' (fun r1 r2 => r1.addr < r2.addr ∨
        (r1.addr = r2.addr ∧ r1.clk < r2.clk))
      (genCellRows a oa cells fr na wo oc).1 := by
  have key : List.Chain' (fun p q : Nat × Nat =>
      p.1 < q.1 ∨ (p.1 = q.1 ∧ p.2 < q.2))
      ((genCellRows a oa cells fr na wo oc).1.map
        (fun r => (r.addr, r.clk))) := by
    rw [genCellRows_map_proj, List.chain'_map]
    exact List.Chain'.imp (fun c1 c2 hc => Or.inr ⟨rfl, hc⟩) h
  rw [List.chain'_map] at key
  exact key

/-- Every row generated by the address loop carries the canonical address of
one of the map's entries. -/
theorem genMemoryTableAux_addr_mem :
    ∀ (mem : List (Nat × List MemCell)) (fr : Bool) (oa oc : Nat)
      (r : MemoryTraceCell), r ∈ genMemoryTableAux mem fr oa oc →
      ∃ e ∈ mem, r.addr = e.1 % ORDER := by
  intro mem
  induction mem with
  | nil =>
    intro fr oa oc r hr
    simp [genMemoryTableAux] at hr
  | cons e rest ih =>
    intro fr oa oc r hr
    obtain ⟨k, cells⟩ := e
    simp only [genMemoryTableAux, List.mem_append] at hr
    rcases hr with h | h
    · exact ⟨(k, cells), List.mem_cons_self _ _, genCellRows_addr h⟩
    · obtain ⟨e2, he2, heq⟩ := ih _ _ _ r h
      exact ⟨e2, List.mem_cons_of_mem _ he2, heq⟩

/-- C6 (amended).  For a memory map whose keys are ascending (the `BTreeMap`
iteration order) and all below `p` (so canonicalisation is the identity),
and whose per-address cell histories have strictly increasing clk, the
post-processed memory trace of `gen_memory_table` is sorted by
(address, clk): consecutive rows have strictly increasing address or equal
address with strictly increasing clk.  The provisos are genuine: a completed
execution can record a raw key at or above `p` (a `call` through a
noncanonical frame-pointer representation), and the trace then labels a late
`BTreeMap` key with a small canonical address, breaking the sort order. -/
theorem C6_memory_trace_sorted (mem : List (Nat × List MemCell))
    (hkeys : List.Chain' (· < ·) (mem.map Prod.fst))
    (hlt : ∀ e ∈ mem, e.1 < ORDER)
    (hclk : ∀ e ∈ mem, List.Chain' (fun c1 c2 => c1.clk < c2.clk) e.2) :
    List.Chain' (fun r1 r2 => r1.addr < r2.addr ∨
      (r1.addr = r2.addr ∧ r1.clk < r2.clk)) (genMemoryTable mem) := by
  suffices haux : ∀ (mem : List (Nat × List MemCell)),
      List.Chain' (· < ·) (mem.map Prod.fst) →
      (∀ e ∈ mem, e.1 < ORDER) →
      (∀ e ∈ mem, List.Chain' (fun c1 c2 => c1.clk < c2.clk) e.2) →
      ∀ (fr : Bool) (oa oc : Nat),
      List.Chain' (fun r1 r2 => r1.addr < r2.addr ∨
        (r1.addr = r2.addr ∧ r1.clk < r2.clk))
        (genMemoryTableAux mem fr oa oc) by
    exact haux mem hkeys hlt hclk true 0 0
  clear hkeys hlt hclk mem
  intro mem
  induction mem with
  | nil =>
    intro _ _ _ fr oa oc
    simp [genMemoryTableAux]
  | cons e rest ih =>
    intro hkeys hlt hclk fr oa oc
    obtain ⟨k, cells⟩ := e
    simp only [genMemoryTableAux]
    refine List.Chain'.append ?_ ?_ ?_
    · exact genCellRows_chain _ _ _ (hclk (k, cells) (List.mem_cons_self _ _))
        _ _ _ _
    · exact ih (hkeys.tail) (fun e2 he2 => hlt e2 (List.mem_cons_of_mem _ he2))
        (fun e2 he2 => hclk e2 (List.mem_cons_of_mem _ he2)) _ _ _
    · intro x hx y hy
      have hxr : x ∈ (genCellRows (k % ORDER) oa cells fr true false oc).1 :=
        List.mem_of_mem_getLast? hx
      have hyr := genMemoryTableAux_addr_mem rest _ _ _ y
        (List.mem_of_mem_head? hy)
      obtain ⟨e2, he2, hy2⟩ := hyr
      have hk : k % ORDER = k :=
        Nat.mod_eq_of_lt (hlt (k, cells) (List.mem_cons_self _ _))
      have he2k : e2.1 % ORDER = e2.1 :=
        Nat.mod_eq_of_lt (hlt e2 (List.mem_cons_of_mem _ he2))
      have hklt : k < e2.1 := by
        have hp := List.chain'_iff_pairwise.mp hkeys
        rw [List.map_cons] at hp
        exact (List.pairwise_cons.mp hp).1 e2.1
          (List.mem_map_of_mem Prod.fst he2)
      left
      rw [genCellRows_addr hxr, hk, hy2, he2k]
      exact hklt

/-! ## Claim C3: memory region selection -/

/-- C3, counterexample.  The claim puts every address of `[p - 2^32, p)` in
the prophet region, but the regions start at `p - k * (2^32 - 1)`
(`MEM_SPAN_SIZE = u32::MAX`): the address `p - 2^32` is dispatched to the
poseidon region, not the prophet region. -/
theorem C3_region_counterexample :
    regionOf (ORDER - 2 ^ 32) = .poseidon ∧
      MemRegion.poseidon ≠ MemRegion.prophet := by
  constructor
  · decide
  · decide

/-- C3 (amended): region selection is a pure function of the address, with
spans of `2^32 - 1` addresses: for `addr < p`, the prophet region is
`[p - (2^32 - 1), p)`, the poseidon region `[p - 2(2^32 - 1), p - (2^32 - 1))`,
the ecdsa region `[p - 3(2^32 - 1), p - 2(2^32 - 1))`, and every lower
address is read-write. -/
theorem C3_region_selection (addr : Nat) (h : addr < ORDER) :
    (regionOf addr = .prophet ↔ ORDER - (2 ^ 32 - 1) ≤ addr) ∧
    (regionOf addr = .poseidon ↔
      ORDER - 2 * (2 ^ 32 - 1) ≤ addr ∧ addr < ORDER - (2 ^ 32 - 1)) ∧
    (regionOf addr = .ecdsa ↔
      ORDER - 3 * (2 ^ 32 - 1) ≤ addr ∧ addr < ORDER - 2 * (2 ^ 32 - 1)) ∧
    (regionOf addr = .readWrite ↔ addr < ORDER - 3 * (2 ^ 32 - 1)) := by
  have hP : PSP_START_ADDR = ORDER - (2 ^ 32 - 1) := by
    simp [PSP_START_ADDR, MEM_SPAN_SIZE]
  have hPo : POSEIDON_START_ADDR = ORDER - 2 * (2 ^ 32 - 1) := by
    simp [POSEIDON_START_ADDR, MEM_SPAN_SIZE]
  have hE : ECDSA_START_ADDR = ORDER - 3 * (2 ^ 32 - 1) := by
    simp [ECDSA_START_ADDR, MEM_SPAN_SIZE]
  have hO : ORDER = 18446744069414584321 := by norm_num [ORDER]
  have h32 : (2 : Nat) ^ 32 - 1 = 4294967295 := by norm_num
  unfold regionOf
  rw [hP, hPo, hE]
  split_ifs with h1 h2 h3 <;>
    simp only [true_and, and_true, iff_true, iff_false, true_iff,
      false_iff] <;>
    simp only [hO, h32] at * <;> omega

/-- Witness for `C3_region_selection` at the concrete address 12345. -/
theorem C3_region_selection_witness :
    (regionOf 12345 = .prophet ↔ ORDER - (2 ^ 32 - 1) ≤ 12345) ∧
    (regionOf 12345 = .poseidon ↔
      ORDER - 2 * (2 ^ 32 - 1) ≤ 12345 ∧ 12345 < ORDER - (2 ^ 32 - 1)) ∧
    (regionOf 12345 = .ecdsa ↔
      ORDER - 3 * (2 ^ 32 - 1) ≤ 12345 ∧ 12345 < ORDER - 2 * (2 ^ 32 - 1)) ∧
    (regionOf 12345 = .readWrite ↔ 12345 < ORDER - 3 * (2 ^ 32 - 1)) :=
  C3_region_selection 12345 (by norm_num [ORDER])

/-! ## Claim C10: operand print / re-parse round trip -/

/-- Any `0x`-prefixed token fails every stage of `OlaOperand::from_str`: the
immediate regex accepts only decimal digits. -/
theorem olaOperand_fromStr_hexToken (ds : List Char) :
    OlaOperand.fromStr ('0' :: 'x' :: ds) =
      .error (.invalid ('0' :: 'x' :: ds)) := rfl

/-- An accepted immediate always stores a `0x`-prefixed hex string. -/
theorem immediate_fromStr_hex_shape {s : List Char} {v : ImmediateValue}
    (hv : ImmediateValue.fromStr s = .ok v) :
    ∃ n, v.hex = '0' :: 'x' :: Nat.toDigits 16 n := by
  unfold ImmediateValue.fromStr at hv
  split at hv
  · split at hv
    · exact absurd hv (by simp)
    · split at hv
      · exact absurd hv (by simp)
      · exact ⟨_, by cases hv; rfl⟩
  · split at hv
    · exact absurd hv (by simp)
    · split at hv
      · exact absurd hv (by simp)
      · exact ⟨_, by cases hv; rfl⟩

/-- The register-with-offset regex rejects a `0x`-prefixed offset. -/
theorem regOffsetParts_hexOffset (c : Char) (ds : List Char) :
    regOffsetParts? ('[' :: 'r' :: c :: ',' :: (('0' :: 'x' :: ds) ++ [']'])) =
      none := by
  have hms : matchesSignedDigits ('0' :: 'x' :: ds) = false := rfl
  simp only [regOffsetParts?, List.getLast?_concat, List.dropLast_concat,
    hms, Bool.false_eq_true, if_false, ite_self]

/-- When the register-with-offset regex does not match, `from_str` falls
through to the remaining stages. -/
theorem olaOperand_fromStr_of_regOffset_none {s : List Char}
    (h : regOffsetParts? s = none) :
    OlaOperand.fromStr s = olaOperandFromStrReg s := by
  unfold OlaOperand.fromStr
  rw [h]

/-- Re-parsing a bracket token whose offset string is `0x`-prefixed hex
fails at every stage. -/
theorem olaOperand_fromStr_bracketHexToken (c : Char) (ds : List Char) :
    OlaOperand.fromStr
      ('[' :: 'r' :: c :: ',' :: (('0' :: 'x' :: ds) ++ [']'])) =
      .error (.invalid
        ('[' :: 'r' :: c :: ',' :: (('0' :: 'x' :: ds) ++ [']']))) := by
  rw [olaOperand_fromStr_of_regOffset_none (regOffsetParts_hexOffset c ds)]
  rfl

set_option maxRecDepth 8000 in
/-- C10, counterexample.  The immediate parsed from `999` is stored as the
hex string `0x3e7`; its printed token re-parses to an error, not to the
original operand (the immediate regex accepts only decimal digits), so the
round trip fails already for `ImmediateOperand`. -/
theorem C10_roundtrip_counterexample :
    ImmediateValue.fromStr ['9', '9', '9'] =
      .ok ⟨['0', 'x', '3', 'e', '7']⟩ ∧
    OlaOperand.fromStr (OlaOperand.getAsmToken
      (.ImmediateOperand ⟨['0', 'x', '3', 'e', '7']⟩)) =
      .error (.invalid ['0', 'x', '3', 'e', '7']) :=
  ⟨rfl, rfl⟩

/-- C10 (amended): for every operand whose immediate part was produced by
`ImmediateValue::from_str`, printing with `get_asm_token` and re-parsing with
`OlaOperand::from_str` returns an error both for `ImmediateOperand` and for
every `RegisterWithOffset` operand, because the printed immediate and offset
are in hexadecimal (`0x`-prefixed) form while the immediate and offset
parsers accept only decimal digits. -/
theorem C10_asm_token_roundtrip (s : List Char) (v : ImmediateValue)
    (hv : ImmediateValue.fromStr s = .ok v) :
    (∃ e, OlaOperand.fromStr
      (OlaOperand.getAsmToken (.ImmediateOperand v)) = .error e) ∧
    ∀ r : OlaRegister, ∃ e, OlaOperand.fromStr
      (OlaOperand.getAsmToken (.RegisterWithOffset r v)) = .error e := by
  obtain ⟨n, hn⟩ := immediate_fromStr_hex_shape hv
  obtain ⟨hex⟩ := v
  simp only at hn
  subst hn
  refine ⟨⟨_, olaOperand_fromStr_hexToken _⟩, fun r => ?_⟩
  cases r <;> exact ⟨_, olaOperand_fromStr_bracketHexToken _ _⟩

/-! ## Claim C9: immediate parsing -/

/-- The value of a genuine `0x`-prefixed hexadecimal literal: `0x` followed
by hex digits. -/
def hexLiteralValue? : List Char → Option Nat
  | '0' :: 'x' :: rest => hexDigitsVal? rest
  | _ => none

/-- A string starting with `0x` is `'0' :: 'x' :: t`. -/
theorem startsWith0x_shape {s : List Char} (h : startsWith0x s = true) :
    ∃ t, s = '0' :: 'x' :: t := by
  rcases s with _ | ⟨c1, _ | ⟨c2, t⟩⟩
  · simp [startsWith0x] at h
  · simp [startsWith0x] at h
  · simp only [startsWith0x, Bool.and_eq_true, decide_eq_true_eq] at h
    obtain ⟨h1, h2⟩ := h
    subst h1; subst h2
    exact ⟨t, rfl⟩

/-- A string of the shape `0x...` is not a signed decimal literal. -/
theorem signedDec_0x_none (t : List Char) :
    signedDecValue? ('0' :: 'x' :: t) = none := rfl

/-- A nonempty all-hex-digit string is unchanged by trimming `0x`. -/
theorem hexDigits_trim_self {s : List Char} {v : Nat}
    (h : hexDigitsVal? s = some v) : trimStartMatches0x s = s := by
  rcases s with _ | ⟨c1, _ | ⟨c2, t⟩⟩
  · rfl
  · rfl
  · have hne : ¬(c1 = '0' ∧ c2 = 'x') := by
      rintro ⟨h1, h2⟩
      subst h1; subst h2
      rw [show hexDigitsVal? ('0' :: 'x' :: t) = none from rfl] at h
      exact Option.noConfusion h
    unfold trimStartMatches0x
    rw [if_neg hne]

/-- A nonempty all-hex-digit string does not start with `+`. -/
theorem hexDigits_head_ne_plus {s : List Char} {v : Nat}
    (h : hexDigitsVal? s = some v) : ¬s.head? = some '+' := by
  rcases s with _ | ⟨c, t⟩
  · simp
  · simp only [List.head?_cons, Option.some.injEq]
    rintro rfl
    rw [show hexDigitsVal? ('+' :: t) = none from rfl] at h
    exact Option.noConfusion h

/-- What `ImmediateValue::from_str` does on a signed decimal literal of
value `v`. -/
theorem fromStr_dec_eq {s : List Char} {v : Int}
    (hv : signedDecValue? s = some v) :
    ImmediateValue.fromStr s =
      if -(2 ^ 127 : Int) ≤ v ∧ v < 2 ^ 127 then
        if (ORDER : Int) ≤ v ∨ (ORDER : Int) ≤ v * (-1) then
          .error (.overflow s)
        else
          .ok ⟨hexFormat
            (if v < 0 then ((ORDER : Int) - (v.natAbs : Int)).toNat
             else v.toNat)⟩
      else .error (.notValidNumber s) := by
  have h0 : startsWith0x s = false := by
    cases hx : startsWith0x s
    · rfl
    · obtain ⟨t, rfl⟩ := startsWith0x_shape hx
      rw [signedDec_0x_none] at hv
      exact Option.noConfusion hv
  have hrp : rustParseI128Dec s =
      if -(2 ^ 127 : Int) ≤ v ∧ v < 2 ^ 127 then some v else none := by
    unfold rustParseI128Dec
    rw [hv]
  unfold ImmediateValue.fromStr
  rw [h0]
  simp only [Bool.false_eq_true, if_false]
  rw [hrp]
  by_cases hb : -(2 ^ 127 : Int) ≤ v ∧ v < 2 ^ 127
  · rw [if_pos hb, if_pos hb]
  · rw [if_neg hb, if_neg hb]

/-- What `ImmediateValue::from_str` does on a hexadecimal literal of value
`v`. -/
theorem fromStr_hex_eq {s : List Char} {v : Nat}
    (hv : hexLiteralValue? s = some v) :
    ImmediateValue.fromStr s =
      if v < 2 ^ 64 then
        if ORDER ≤ v then .error (.overflow s) else .ok ⟨hexFormat v⟩
      else .error (.notValidNumber s) := by
  unfold hexLiteralValue? at hv
  split at hv
  · next rest =>
    have h0 : startsWith0x ('0' :: 'x' :: rest) = true := rfl
    have htrim : trimStartMatches0x ('0' :: 'x' :: rest) = rest := by
      unfold trimStartMatches0x
      rw [if_pos ⟨rfl, rfl⟩]
      exact hexDigits_trim_self hv
    have hparse : rustParseU64Hex rest =
        if v < 2 ^ 64 then some v else none := by
      unfold rustParseU64Hex
      rw [if_neg (hexDigits_head_ne_plus hv)]
      rw [hv]
    unfold ImmediateValue.fromStr
    rw [h0]
    simp only [if_true]
    rw [htrim, hparse]
    by_cases hb : v < 2 ^ 64
    · rw [if_pos hb, if_pos hb]
    · rw [if_neg hb, if_neg hb]
  · exact Option.noConfusion hv

/-- C9, counterexample.  The hexadecimal literal `0x1` followed by sixteen
zeros has value `2^64 ≥ p`, yet `ImmediateValue::from_str` rejects it with
the "not a valid number" error (the `u64` hex parse fails first), not with
the overflow error the claim requires for every literal with value `≥ p`. -/
theorem C9_overflow_error_counterexample :
    hexLiteralValue? (['0', 'x', '1'] ++ List.replicate 16 '0') =
      some (2 ^ 64) ∧
    ORDER ≤ 2 ^ 64 ∧
    ImmediateValue.fromStr (['0', 'x', '1'] ++ List.replicate 16 '0') =
      .error (.notValidNumber (['0', 'x', '1'] ++ List.replicate 16 '0')) ∧
    ImmError.notValidNumber (['0', 'x', '1'] ++ List.replicate 16 '0') ≠
      ImmError.overflow (['0', 'x', '1'] ++ List.replicate 16 '0') :=
  ⟨rfl, by norm_num [ORDER], rfl, fun h => ImmError.noConfusion h⟩

/-- C9 (amended): `ImmediateValue::from_str` accepts every decimal or
`0x`-prefixed hexadecimal literal whose absolute value is below
`p = 2^64 - 2^32 + 1` (a negative decimal literal `-v` is stored with
canonical value `p - v`); a literal with value `≥ p` is rejected with the
overflow error when its value fits the parsing integer type (`u64` for hex,
`i128` for decimal), and with the invalid-number error beyond that. -/
theorem C9_immediate_parse :
    (∀ (s : List Char) (v : Int), signedDecValue? s = some v →
      v.natAbs < ORDER → ImmediateValue.fromStr s =
        .ok ⟨hexFormat (if v < 0 then ORDER - v.natAbs else v.toNat)⟩) ∧
    (∀ (s : List Char) (v : Nat), hexLiteralValue? s = some v → v < ORDER →
      ImmediateValue.fromStr s = .ok ⟨hexFormat v⟩) ∧
    (∀ (s : List Char) (v : Int), signedDecValue? s = some v →
      ORDER ≤ v.natAbs → v.natAbs < 2 ^ 127 →
      ImmediateValue.fromStr s = .error (.overflow s)) ∧
    (∀ (s : List Char) (v : Nat), hexLiteralValue? s = some v → ORDER ≤ v →
      v < 2 ^ 64 → ImmediateValue.fromStr s = .error (.overflow s)) ∧
    (∀ (s : List Char) (v : Nat), hexLiteralValue? s = some v → 2 ^ 64 ≤ v →
      ImmediateValue.fromStr s = .error (.notValidNumber s)) ∧
    (∀ (s : List Char) (v : Int), signedDecValue? s = some v →
      (2 ^ 127 : Int) ≤ v →
      ImmediateValue.fromStr s = .error (.notValidNumber s)) := by
  have hOrd127 : (ORDER : Int) < 2 ^ 127 := by norm_num [ORDER]
  refine ⟨?_, ?_, ?_, ?_, ?_, ?_⟩
  · intro s v hv hb
    rw [fromStr_dec_eq hv]
    have hA : (v.natAbs : Int) < (ORDER : Int) := by exact_mod_cast hb
    have he := Int.natAbs_eq v
    have h127 : -(2 ^ 127 : Int) ≤ v ∧ v < 2 ^ 127 := by
      rcases he with h | h <;> omega
    have hov : ¬((ORDER : Int) ≤ v ∨ (ORDER : Int) ≤ v * (-1)) := by
      rcases he with h | h <;> omega
    rw [if_pos h127, if_neg hov]
    by_cases hv0 : v < 0
    · rw [if_pos hv0, if_pos hv0]
      congr 2
      rw [← Nat.cast_sub hb.le]
      simp
    · rw [if_neg hv0, if_neg hv0]
  · intro s v hv hb
    rw [fromStr_hex_eq hv]
    have hOrd64 : ORDER ≤ 2 ^ 64 := by norm_num [ORDER]
    have h64 : v < 2 ^ 64 := by omega
    have hno : ¬ORDER ≤ v := by omega
    rw [if_pos h64, if_neg hno]
  · intro s v hv hb hb2
    rw [fromStr_dec_eq hv]
    have hA1 : (ORDER : Int) ≤ (v.natAbs : Int) := by exact_mod_cast hb
    have hA2 : (v.natAbs : Int) < 2 ^ 127 := by exact_mod_cast hb2
    have he := Int.natAbs_eq v
    have h127 : -(2 ^ 127 : Int) ≤ v ∧ v < 2 ^ 127 := by
      rcases he with h | h <;> omega
    have hov : (ORDER : Int) ≤ v ∨ (ORDER : Int) ≤ v * (-1) := by
      rcases he with h | h <;> omega
    rw [if_pos h127, if_pos hov]
  · intro s v hv hb hb2
    rw [fromStr_hex_eq hv]
    rw [if_pos hb2, if_pos hb]
  · intro s v hv hb
    rw [fromStr_hex_eq hv]
    have h64 : ¬v < 2 ^ 64 := by omega
    rw [if_neg h64]
  · intro s v hv hb
    rw [fromStr_dec_eq hv]
    have h127 : ¬(-(2 ^ 127 : Int) ≤ v ∧ v < 2 ^ 127) := by omega
    rw [if_neg h127]

set_option maxRecDepth 8000 in
/-- Witness for `C9_immediate_parse` at concrete literals: `999`, `-7`,
`0xff`, the decimal and hex spellings of `p`, and `0x1` with sixteen
zeros (value `2^64`). -/
theorem C9_immediate_parse_witness :
    (ImmediateValue.fromStr ['9', '9', '9'] = .ok ⟨hexFormat
      (if (999 : Int) < 0 then ORDER - (999 : Int).natAbs
       else (999 : Int).toNat)⟩) ∧
    (ImmediateValue.fromStr ['-', '7'] = .ok ⟨hexFormat
      (if (-7 : Int) < 0 then ORDER - (-7 : Int).natAbs
       else (-7 : Int).toNat)⟩) ∧
    (ImmediateValue.fromStr ['0', 'x', 'f', 'f'] = .ok ⟨hexFormat 255⟩) ∧
    (ImmediateValue.fromStr
      ['1', '8', '4', '4', '6', '7', '4', '4', '0', '6', '9', '4', '1',
       '4', '5', '8', '4', '3', '2', '1'] =
      .error (.overflow
        ['1', '8', '4', '4', '6', '7', '4', '4', '0', '6', '9', '4', '1',
         '4', '5', '8', '4', '3', '2', '1'])) ∧
    (ImmediateValue.fromStr
      ['0', 'x', 'f', 'f', 'f', 'f', 'f', 'f', 'f', 'f', '0', '0', '0',
       '0', '0', '0', '0', '1'] =
      .error (.overflow
        ['0', 'x', 'f', 'f', 'f', 'f', 'f', 'f', 'f', 'f', '0', '0', '0',
         '0', '0', '0', '0', '1'])) ∧
    (ImmediateValue.fromStr (['0', 'x', '1'] ++ List.replicate 16 '0') =
      .error (.notValidNumber (['0', 'x', '1'] ++ List.replicate 16 '0'))) :=
  ⟨C9_immediate_parse.1 _ 999 rfl (by norm_num [ORDER]),
   C9_immediate_parse.1 _ (-7) rfl (by norm_num [ORDER]),
   C9_immediate_parse.2.1 _ 255 rfl (by norm_num [ORDER]),
   C9_immediate_parse.2.2.1 _ ((ORDER : Nat) : Int)
     (by rw [show (((ORDER : Nat) : Int)) = 18446744069414584321 from by
           norm_num [ORDER]]; rfl)
     (by norm_num [ORDER]) (by norm_num [ORDER]),
   C9_immediate_parse.2.2.2.1 _ ORDER
     (by rw [show (ORDER : Nat) = 18446744069414584321 from by
           norm_num [ORDER]]; rfl)
     (le_refl _) (by norm_num [ORDER]),
   C9_immediate_parse.2.2.2.2.1 _ (2 ^ 64) (by decide) (le_refl _)⟩

/-! ## Concrete programs for the executor claims -/

/-- The iterative Fibonacci scenario of spec §8 (and the
`fibo_use_loop_decode` test), decoded to binary PCs:
`mov r0 8; mov r1 1; mov r2 1; mov r3 0; L: eq r4 r0 r3; cjmp r4 19;
add r4 r1 r2; mov r1 r2; mov r2 r4; mov r4 1; add r3 r3 r4; jmp 8; 19: end`. -/
def fiboProgram : List (Nat × ProgEntry) :=
  [(0, ⟨.mov 0 (.imm 8), 2⟩), (2, ⟨.mov 1 (.imm 1), 2⟩),
   (4, ⟨.mov 2 (.imm 1), 2⟩), (6, ⟨.mov 3 (.imm 0), 2⟩),
   (8, ⟨.eq 4 0 (.reg 3), 1⟩), (9, ⟨.cjmp 4 (.imm 19), 2⟩),
   (11, ⟨.add 4 1 (.reg 2), 1⟩), (12, ⟨.mov 1 (.reg 2), 1⟩),
   (13, ⟨.mov 2 (.reg 4), 1⟩), (14, ⟨.mov 4 (.imm 1), 2⟩),
   (16, ⟨.add 3 3 (.reg 4), 1⟩), (17, ⟨.jmp (.imm 8), 2⟩),
   (19, ⟨.endInstr, 1⟩)]

/-- `mov r0 2; cjmp r0 9; end`: a conditional jump whose flag is neither 0
nor 1. -/
def cjmpFlagTwoProgram : List (Nat × ProgEntry) :=
  [(0, ⟨.mov 0 (.imm 2), 2⟩), (2, ⟨.cjmp 0 (.imm 9), 2⟩),
   (4, ⟨.endInstr, 1⟩)]

/-- `mov r0 0xffffffff00000000; mov r1 0xffffffff; or r2 r0 r1; range r2;
end`: `or` stores the unreduced representation `2^64 - 1` into r2. -/
def orRangeProgram : List (Nat × ProgEntry) :=
  [(0, ⟨.mov 0 (.imm 0xFFFFFFFF00000000), 2⟩),
   (2, ⟨.mov 1 (.imm 0xFFFFFFFF), 2⟩),
   (4, ⟨.or 2 0 (.reg 1), 1⟩),
   (5, ⟨.range 2, 1⟩),
   (6, ⟨.endInstr, 1⟩)]

/-- `mov r0 5; mstore [psp,0] r0; mstore [psp,0] r0; end`: two stores to the
same prophet-region address (spec §8 scenario 5). -/
def doubleMstoreProgram : List (Nat × ProgEntry) :=
  [(0, ⟨.mov 0 (.imm 5), 2⟩),
   (2, ⟨.mstore .psp 0 none, 1⟩),
   (3, ⟨.mstore .psp 0 none, 1⟩),
   (4, ⟨.endInstr, 1⟩)]

/-- `mov r0 0xffffffff00000000; mov r6 0xffffffff; or r0 r0 r6;
mov r1 0xfffffffe; assert r0 r1; end` for `Process::execute`: r0 and r1 hold
the same field element (canonically `2^32 - 2`) in different
representations. -/
def assertProgram : List (Nat × ProgEntry) :=
  [(0, ⟨.mov 0 (.imm 0xFFFFFFFF00000000), 2⟩),
   (2, ⟨.mov 6 (.imm 0xFFFFFFFF), 2⟩),
   (4, ⟨.or 0 0 (.reg 6), 1⟩),
   (5, ⟨.mov 1 (.imm 0xFFFFFFFE), 2⟩),
   (7, ⟨.assertInstr 0 (.reg 1), 1⟩),
   (8, ⟨.endInstr, 1⟩)]

/-- The same program as `assertProgram` in the runner's binary form. -/
def runnerAssertProgram : List (Nat × BinaryInstruction) :=
  [(0, ⟨.MOV, none, some (.ImmediateOperand ⟨hexFormat 0xFFFFFFFF00000000⟩),
        some (.RegisterOperand .R0)⟩),
   (2, ⟨.MOV, none, some (.ImmediateOperand ⟨hexFormat 0xFFFFFFFF⟩),
        some (.RegisterOperand .R6)⟩),
   (4, ⟨.OR, some (.RegisterOperand .R0), some (.RegisterOperand .R6),
        some (.RegisterOperand .R0)⟩),
   (5, ⟨.MOV, none, some (.ImmediateOperand ⟨hexFormat 0xFFFFFFFE⟩),
        some (.RegisterOperand .R1)⟩),
   (7, ⟨.ASSERT, some (.RegisterOperand .R0), some (.RegisterOperand .R1),
        none⟩),
   (8, ⟨.END, none, none, none⟩)]

/-- `mov r0 (p-1); mov r1 2; or r9 r0 r1; mstore [r0,0] r1; call 8; end`:
the `or` arm leaves the frame-pointer slot `registers[9]` holding the
unreduced representation `(p - 1) | 2 = p + 1`, so the `call` arm records
its return-PC write at the raw `u64` key `p + 1 - 1 = p` (canonical
address 0) after the store at `p - 1`. -/
def unsortedTraceProgram : List (Nat × ProgEntry) :=
  [(0, ⟨.mov 0 (.imm 0xFFFFFFFF00000000), 2⟩),
   (2, ⟨.mov 1 (.imm 2), 2⟩),
   (4, ⟨.or 9 0 (.reg 1), 1⟩),
   (5, ⟨.mstore (.reg 0) 1 none, 1⟩),
   (6, ⟨.call (.imm 8), 2⟩),
   (8, ⟨.endInstr, 1⟩)]

/-- The memory map `unsortedTraceProgram` leaves behind: the `mstore` write
and the `call` frame read at key `p - 1`, and the `call` return-PC write at
the raw key `p` (which canonicalises to address 0). -/
def unsortedTraceMemory : MemoryTree :=
  [(ORDER - 1, [⟨3, some .MSTORE, 1, 1, 1, 0, 0, 0, 2⟩,
                ⟨4, some .CALL, 1, 0, 1, 0, 0, 0, 2⟩]),
   (ORDER, [⟨4, some .CALL, 1, 1, 1, 0, 0, 0, 8⟩])]

set_option maxRecDepth 100000 in
/-- C1.  `Process::execute` does not fault when the CJMP flag is neither 0
nor 1: with r0 = 2, `cjmp r0 9` falls through to PC + len and the program
completes (final PC 4, r0 still 2), while `OlaRunner::run_one_step` on the
same step raises the flag-not-binary fault, as the claim and the spec
require. -/
theorem C1_cjmp_no_fault_on_nonbinary_flag :
    (processRun 10 cjmpFlagTwoProgram 5 procInit).toOption.map
      (fun st => (st.pc, st.reg 0)) = some (4, 2) ∧
    runnerStep { runnerInit with registers := [2, 0, 0, 0, 0, 0, 0, 0, 0] }
      ⟨.CJMP, some (.RegisterOperand .R0),
        some (.ImmediateOperand ⟨hexFormat 9⟩), none⟩ =
      .error (.FlagNotBinary 0 0 2) := by
  constructor
  · decide
  · decide

set_option maxRecDepth 100000 in
/-- C2.  On a prophet returning `Multiple [7, 9, 5]`: `Process::prophet`
writes 7 at PSP and 9 at PSP+1 as write-once cells, advances the PSP by two
and makes 5 the new HP; `OlaRunner::on_prophet` instead records all three
values (the last included) as write rows at the same address PSP and
advances the PSP by one in total. -/
theorem C2_prophet_output_handling :
    (Process.prophetHandleOutput procInit (.Multiple [7, 9, 5])).toOption.map
      (fun st => (st.psp, st.hp,
        (memFind st.memory PSP_START_ADDR).map
          (List.map (fun c => (c.value, c.isRw, c.isWrite))),
        (memFind st.memory (PSP_START_ADDR + 1)).map
          (List.map (fun c => (c.value, c.isRw, c.isWrite))))) =
      some (PSP_START_ADDR + 2, 5, some [(7, MemoryType.WriteOnce, 1)],
        some [(9, MemoryType.WriteOnce, 1)]) ∧
    OlaRunner.onProphetOutputs runnerInit (.Multiple [7, 9, 5]) =
      .ok ([⟨PSP_START_ADDR, 7, true, none⟩,
            ⟨PSP_START_ADDR, 9, true, none⟩,
            ⟨PSP_START_ADDR, 5, true, none⟩],
        { runnerInit with psp := PSP_START_ADDR + 1 }) := by
  constructor
  · rfl
  · decide

set_option maxRecDepth 100000 in
/-- C4.  The `mstore` arm records every write as read-write regardless of
the address: storing twice to the prophet-region address `PSP_START_ADDR`
succeeds and leaves two `is_write = 1` cells at an address `≥ p - 3 * 2^32`,
with no fault; the write-once fault is raised only for writes tagged
write-once, such as the prophet path on an already-written address. -/
theorem C4_write_once_not_enforced_for_mstore :
    (processRun 10 doubleMstoreProgram 5 procInit).toOption.map
      (fun st => (memFind st.memory PSP_START_ADDR).map
        (fun cs => (cs.length, cs.countP (fun c => c.isWrite = 1),
          cs.map (fun c => c.isRw)))) =
      some (some (2, 2, [MemoryType.ReadWrite, MemoryType.ReadWrite])) ∧
    ORDER - 3 * 2 ^ 32 ≤ PSP_START_ADDR ∧
    Process.prophetHandleOutput { procInit with
        memory := [(PSP_START_ADDR,
          [⟨0, none, MemoryType.WriteOnce, 1, 0, 1, 0, 0, 5⟩])] }
      (.Multiple [1, 2]) = .error .WriteOnceViolation := by
  refine ⟨?_, ?_, ?_⟩
  · decide
  · decide
  · decide

set_option maxRecDepth 100000 in
/-- C5, counterexample.  Running the iterative Fibonacci scenario program
from zeroed registers terminates with final R2 = 55, not 34 (the loop body
executes for r3 = 0..7, i.e. eight times). -/
theorem C5_fibo_counterexample :
    (processRun 200 fiboProgram 20 procInit).toOption.map
      (fun st => st.reg 2) ≠ some 34 := by
  decide

set_option maxRecDepth 100000 in
/-- C5 (amended): the iterative Fibonacci scenario program terminates
normally and its final R2 is 55. -/
theorem C5_fibo_loop_final_r2 :
    (processRun 200 fiboProgram 20 procInit).toOption.map
      (fun st => st.reg 2) = some 55 := by
  decide

set_option maxRecDepth 100000 in
/-- C7.  After `or r2 r0 r1` with r0 = `0xffffffff00000000` and
r1 = `0xffffffff`, register r2 holds the unreduced representation
`2^64 - 1`; `range r2` in `Process::execute` halts with `U32RangeCheckFail`
although the canonical value of r2 is `2^32 - 2 < 2^32` (the arm checks the
raw representation `.0`, and the bitwise arms store unreduced
representations, contrary to the spec's register-canonicality invariant).
`OlaRunner`'s RC arm checks the canonical value and continues. -/
theorem C7_range_checks_raw_representation :
    processRun 10 orRangeProgram 7 procInit = .error .U32RangeCheckFail ∧
    toCanonical 0xFFFFFFFFFFFFFFFF = 0xFFFFFFFE ∧
    (0xFFFFFFFE : Nat) < 2 ^ 32 ∧
    (runnerStep { runnerInit with
        registers := [0xFFFFFFFFFFFFFFFF, 0, 0, 0, 0, 0, 0, 0, 0] }
      ⟨.RC, none, some (.RegisterOperand .R0), none⟩).toOption.map
        (fun c => c.pc) = some 1 := by
  refine ⟨?_, ?_, ?_, ?_⟩
  · decide
  · decide
  · decide
  · decide

set_option maxRecDepth 100000 in
/-- C8.  `OlaRunner`'s ASSERT compares the raw `u64` representations: after
`or r0 r0 r6` leaves r0 = `2^64 - 1` and r1 = `0xfffffffe` (the same field
element, canonically `2^32 - 2`), `assert r0 r1` faults in the runner,
while `Process::execute` compares canonically and the same program
completes. -/
theorem C8_assert_raw_compare_in_runner :
    runnerRun 10 runnerAssertProgram runnerInit =
      .error (.AssertFail 4 7 0xFFFFFFFFFFFFFFFF 0xFFFFFFFE) ∧
    toCanonical 0xFFFFFFFFFFFFFFFF = toCanonical 0xFFFFFFFE ∧
    (processRun 10 assertProgram 9 procInit).toOption.map
      (fun st => st.pc) = some 8 := by
  refine ⟨?_, ?_, ?_⟩
  · decide
  · decide
  · decide

set_option maxRecDepth 100000 in
/-- C6, counterexample.  A completed `Process::execute` run whose
post-processed memory trace is not sorted by (address, clk): the `or` arm
leaves the frame-pointer slot holding the unreduced representation `p + 1`,
so the `call` arm records its return-PC write at the raw key `p` while
`mstore` wrote at `p - 1`; `gen_memory_table` iterates the raw keys in
ascending order but labels the rows with canonical addresses, so the trace
rows carry `(addr, clk)` values `(p-1, 3), (p-1, 4), (0, 4)` — the address
column decreases at the last row. -/
theorem C6_post_sort_counterexample :
    (processRun 10 unsortedTraceProgram 9 procInit).toOption.map
      ProcState.memory = some unsortedTraceMemory ∧
    (genMemoryTable unsortedTraceMemory).map (fun r => (r.addr, r.clk)) =
      [(ORDER - 1, 3), (ORDER - 1, 4), (0, 4)] ∧
    ¬ List.Chain' (fun r1 r2 => r1.addr < r2.addr ∨
        (r1.addr = r2.addr ∧ r1.clk < r2.clk))
      (genMemoryTable unsortedTraceMemory) := by
  refine ⟨?_, ?_, ?_⟩
  · decide
  · decide
  · intro hch
    have key : List.Chain' (fun p q : Nat × Nat =>
        p.1 < q.1 ∨ (p.1 = q.1 ∧ p.2 < q.2))
        ((genMemoryTable unsortedTraceMemory).map
          (fun r => (r.addr, r.clk))) := by
      rw [List.chain'_map]
      exact hch
    rw [show (genMemoryTable unsortedTraceMemory).map
        (fun r => (r.addr, r.clk)) =
        [(ORDER - 1, 3), (ORDER - 1, 4), (0, 4)] by decide] at key
    rw [List.chain'_cons, List.chain'_cons] at key
    obtain ⟨-, hbad, -⟩ := key
    rcases hbad with h | ⟨h, -⟩ <;> norm_num [ORDER] at h

set_option maxRecDepth 8000 in
/-- Witness for `C10_asm_token_roundtrip` at the parsed literal `999`. -/
theorem C10_asm_token_roundtrip_witness :
    (∃ e, OlaOperand.fromStr (OlaOperand.getAsmToken
      (.ImmediateOperand ⟨['0', 'x', '3', 'e', '7']⟩)) = .error e) ∧
    ∀ r : OlaRegister, ∃ e, OlaOperand.fromStr (OlaOperand.getAsmToken
      (.RegisterWithOffset r ⟨['0', 'x', '3', 'e', '7']⟩)) = .error e :=
  C10_asm_token_roundtrip ['9', '9', '9'] ⟨['0', 'x', '3', 'e', '7']⟩ rfl

set_option maxRecDepth 8000 in
/-- Witness for `C6_memory_trace_sorted` on a concrete memory map: a
read-write address 5 with a write at clk 1 and a read at clk 3, and a
read-write address 9 with a write at clk 2. -/
theorem C6_memory_trace_sorted_witness :
    List.Chain' (fun r1 r2 => r1.addr < r2.addr ∨
      (r1.addr = r2.addr ∧ r1.clk < r2.clk))
      (genMemoryTable
        [(5, [⟨1, some .MSTORE, 1, 1, 1, 0, 0, 0, 42⟩,
              ⟨3, some .MLOAD, 1, 0, 1, 0, 0, 0, 42⟩]),
         (9, [⟨2, some .MSTORE, 1, 1, 1, 0, 0, 0, 7⟩])]) :=
  C6_memory_trace_sorted
    [(5, [⟨1, some .MSTORE, 1, 1, 1, 0, 0, 0, 42⟩,
          ⟨3, some .MLOAD, 1, 0, 1, 0, 0, 0, 42⟩]),
     (9, [⟨2, some .MSTORE, 1, 1, 1, 0, 0, 0, 7⟩])]
    (by simp [List.chain'_cons])
    (by intro e he; fin_cases he <;> norm_num [ORDER])
    (by intro e he; fin_cases he <;> simp [List.chain'_cons])

end Olavm
